import Mathlib

/-!
Shallow embedding of the collection-and-persistence core of the
Financial-Markets-Analysis repository:

* `src/data_setup/components/database_config.py` — `FinancialDatabase`
  (`clean_value`, `insert_asset`, `insert_daily_prices`);
* `src/data_setup/components/data_collection_config.py` —
  `FinancialDataCollector` (`get_asset_overview_alpha_vantage`,
  `calculate_realized_volatility`, `batch_collect_with_delay`);
* `src/data_setup/pipelines/data_collection_pipeline.py` —
  `FinancialDataPipeline` (`collect_and_insert_asset`, the three
  `_map...`/`_create_minimal_asset` mappers, `update_sector_performance`).

Python scalars are modelled by `PyVal` (strings, numbers as exact
rationals, date objects); absent values and Python `None` by `Option`.
Functions that can raise an uncaught Python exception are modelled in
`Except PyError`; functions that cannot raise are plain functions.
-/

namespace FMA

/-- A Python scalar value as it occurs in the provider payloads and asset
dictionaries: a string, a number (Python ints and floats, modelled as exact
rationals), or a `datetime.date` object. -/
inductive PyVal where
  | str (s : String)
  | num (q : ℚ)
  | date (y m d : Nat)
deriving DecidableEq, Repr

/-- A Python dict with string keys, as used for provider payloads and the
canonical asset record (`asset_data`). Keys are unique in a Python dict;
lookup takes the first matching entry. A stored value may itself be
`Option.none` (Python `None` stored under a key). -/
def Dict : Type := List (String × Option PyVal)

instance : DecidableEq Dict := by unfold Dict; infer_instance

instance : Membership (String × Option PyVal) Dict := by unfold Dict; infer_instance

/-- Python `d.get(k)`: the stored value when the key is present (which may be
`None`), and `None` when the key is absent. -/
def dget (d : Dict) (k : String) : Option PyVal :=
  match d.find? (fun p => p.1 = k) with
  | some p => p.2
  | none => none

/-- Python `d.get(k, default)`: the stored value when the key is present
(even if that value is `None`), the default only when the key is absent. -/
def dgetD (d : Dict) (k : String) (dflt : PyVal) : Option PyVal :=
  match d.find? (fun p => p.1 = k) with
  | some p => p.2
  | none => some dflt

/-- Python `k in d`. -/
def dcontains (d : Dict) (k : String) : Bool :=
  d.any (fun p => p.1 = k)

/-- The sentinel test `value in ['None', '-', 'N/A', '', None]` at the top of
`clean_value` (database_config.py line 79) and of `clean_numeric`
(data_collection_pipeline.py line 320). -/
def isSentinel (v : Option PyVal) : Bool :=
  match v with
  | none => true
  | some (.str s) => s = "None" || s = "-" || s = "N/A" || s = ""
  | some _ => false

/-- Python truthiness of a scalar, used by `if value and value != 'None'`
and `return str(value) if value else None`. -/
def pyTruthy (v : PyVal) : Bool :=
  match v with
  | .str s => s ≠ ""
  | .num q => q ≠ 0
  | .date _ _ _ => true

/-- Numeric value of a list of decimal digit characters. -/
def digitsVal (cs : List Char) : ℕ :=
  cs.foldl (fun a c => 10 * a + (c.toNat - '0'.toNat)) 0

/-- Parse an unsigned decimal literal (digits with an optional single dot,
as in "123", "123.45", "1.", ".5"); `none` on anything else. -/
def parseUnsigned (cs : List Char) : Option ℚ :=
  match cs.splitOn '.' with
  | [ip] =>
      if ip ≠ [] ∧ ip.all Char.isDigit then some (digitsVal ip) else none
  | [ip, fp] =>
      if (ip ≠ [] ∨ fp ≠ []) ∧ ip.all Char.isDigit ∧ fp.all Char.isDigit then
        some ((digitsVal ip : ℚ) + (digitsVal fp : ℚ) / (10 : ℚ) ^ fp.length)
      else none
  | _ => none

/-- The decimal-literal fragment of Python `float(s)` on a string: an
optional sign followed by digits with an optional dot. (Exponent forms,
inf/nan and surrounding whitespace are outside the modelled fragment; on
them, as on any other unparsable string, the model returns `none`, matching
Python raising `ValueError` into the surrounding `except`.) -/
def pyFloatOfString (s : String) : Option ℚ :=
  match s.toList with
  | '+' :: rest => parseUnsigned rest
  | '-' :: rest => (parseUnsigned rest).map Neg.neg
  | cs => parseUnsigned cs

/-- Python `float(value)` on a scalar: numbers pass through, strings are
parsed, a date object raises `TypeError` (modelled as `none`, since every
call site wraps this in `except (ValueError, TypeError)`). -/
def pyFloat (v : PyVal) : Option ℚ :=
  match v with
  | .num q => some q
  | .str s => pyFloatOfString s
  | .date _ _ _ => none

/-- Python `int(q)` on a float: truncation toward zero. -/
def ratTrunc (q : ℚ) : ℤ :=
  if q < 0 then -(⌊-q⌋) else ⌊q⌋

/-- Whether a list of characters is the body of a `%Y-%m-%d` date, i.e.
`datetime.strptime(s, '%Y-%m-%d')` succeeds: digits-digits-digits split by
two dashes with a valid month and day. -/
def parseYmd (s : String) : Option PyVal :=
  match (s.toList).splitOn '-' with
  | [ys, ms, ds] =>
      if ys ≠ [] ∧ ys.all Char.isDigit ∧ ms ≠ [] ∧ ms.all Char.isDigit ∧
         ds ≠ [] ∧ ds.all Char.isDigit ∧
         1 ≤ digitsVal ms ∧ digitsVal ms ≤ 12 ∧
         1 ≤ digitsVal ds ∧ digitsVal ds ≤ 31 then
        some (.date (digitsVal ys) (digitsVal ms) (digitsVal ds))
      else none
  | _ => none

/-- Python `str(value)` for the scalar values in scope (only the string case
is ever reached with a truthy value in the default branch in practice). -/
def pyStr (v : PyVal) : String :=
  match v with
  | .str s => s
  | .num q => toString q
  | .date y m d => toString y ++ "-" ++ toString m ++ "-" ++ toString d

/-- An uncaught Python exception escaping one of the embedded functions. -/
inductive PyError where
  | typeError
deriving DecidableEq, Repr

end FMA

deriving instance DecidableEq for Except

namespace FMA

/-- `clean_value(value, data_type)` from `FinancialDatabase.insert_asset`
(database_config.py lines 78–98). The sentinel list maps to `None` for every
kind. The `'float'` and `'int'` branches wrap the parse in
`except (ValueError, TypeError)` and so never raise; the `'date'` branch
catches only `ValueError`, so `datetime.strptime` applied to a truthy
non-string value (for example a `datetime.date` object) raises an uncaught
`TypeError`, modelled as `Except.error .typeError`. -/
def clean_value (v : Option PyVal) (data_type : String) : Except PyError (Option PyVal) :=
  if isSentinel v then .ok none
  else if data_type = "float" then
    .ok (match v with
         | some w => (pyFloat w).map PyVal.num
         | none => none)
  else if data_type = "int" then
    .ok (match v with
         | some w => (pyFloat w).map (fun q => PyVal.num (ratTrunc q))
         | none => none)
  else if data_type = "date" then
    match v with
    | some w =>
        if pyTruthy w && w ≠ .str "None" then
          match w with
          | .str s => .ok (parseYmd s)
          | _ => .error .typeError
        else .ok none
    | none => .ok none
  else
    .ok (match v with
         | some w => if pyTruthy w then some (.str (pyStr w)) else none
         | none => none)

/-- `clean_numeric(value)` from `FinancialDataPipeline._map_alpha_vantage_to_asset`
(data_collection_pipeline.py lines 319–325): the same sentinel list, then a
float parse guarded by `except (ValueError, TypeError)`; never raises. -/
def clean_numeric (v : Option PyVal) : Option PyVal :=
  if isSentinel v then none
  else match v with
       | some w => (pyFloat w).map PyVal.num
       | none => none

/-- `clean_date(value)` from `FinancialDataPipeline._map_alpha_vantage_to_asset`
(data_collection_pipeline.py lines 327–334): `strptime` guarded only by
`except ValueError`, so a truthy non-string raises `TypeError`. -/
def clean_date (v : Option PyVal) : Except PyError (Option PyVal) :=
  match v with
  | some w =>
      if pyTruthy w && w ≠ .str "None" then
        match w with
        | .str s => .ok (parseYmd s)
        | _ => .error .typeError
      else .ok none
  | none => .ok none

/-! ## Source resolver and canonical record mappers -/

/-- The validity check inside `get_asset_overview_alpha_vantage`
(data_collection_config.py line 62): the payload is usable when it contains
the `'Symbol'` identity field and neither of the `'Note'` / `'Error Message'`
throttle/error markers. -/
def avUsable (d : Dict) : Bool :=
  dcontains d "Symbol" && !dcontains d "Note" && !dcontains d "Error Message"

/-- `FinancialDataCollector.get_asset_overview_alpha_vantage`
(data_collection_config.py lines 36–71). `hasKey` models whether an Alpha
Vantage API key was configured; `resp` is the transport outcome (`none` for
a network/HTTP/JSON exception, all caught by the blanket `except`). An
unusable payload and every failure alike yield `None`. -/
def get_asset_overview_alpha_vantage (hasKey : Bool) (resp : Option Dict) : Option Dict :=
  if !hasKey then none
  else match resp with
       | none => none
       | some data => if avUsable data then some data else none

/-- `FinancialDataPipeline._map_alpha_vantage_to_asset`
(data_collection_pipeline.py lines 316–380): the canonical asset dict built
from an Alpha Vantage overview payload. The numeric fields go through
`clean_numeric`; the two date fields go through `clean_date`, which can
raise (`Except`). -/
def map_alpha_vantage_to_asset (d : Dict) (asset_type : String) : Except PyError Dict := do
  let dd ← clean_date (dget d "DividendDate")
  let xd ← clean_date (dget d "ExDividendDate")
  .ok [
    ("Symbol", dget d "Symbol"),
    ("Name", dget d "Name"),
    ("Description", dget d "Description"),
    ("CIK", dget d "CIK"),
    ("Exchange", dget d "Exchange"),
    ("Currency", dgetD d "Currency" (.str "USD")),
    ("Country", dget d "Country"),
    ("Sector", dget d "Sector"),
    ("Industry", dget d "Industry"),
    ("AssetType", dgetD d "AssetType" (.str asset_type)),
    ("MarketCapitalization", clean_numeric (dget d "MarketCapitalization")),
    ("EBITDA", clean_numeric (dget d "EBITDA")),
    ("PERatio", clean_numeric (dget d "PERatio")),
    ("PEGRatio", clean_numeric (dget d "PEGRatio")),
    ("BookValue", clean_numeric (dget d "BookValue")),
    ("DividendPerShare", clean_numeric (dget d "DividendPerShare")),
    ("DividendYield", clean_numeric (dget d "DividendYield")),
    ("EPS", clean_numeric (dget d "EPS")),
    ("RevenuePerShareTTM", clean_numeric (dget d "RevenuePerShareTTM")),
    ("ProfitMargin", clean_numeric (dget d "ProfitMargin")),
    ("OperatingMarginTTM", clean_numeric (dget d "OperatingMarginTTM")),
    ("ReturnOnAssetsTTM", clean_numeric (dget d "ReturnOnAssetsTTM")),
    ("ReturnOnEquityTTM", clean_numeric (dget d "ReturnOnEquityTTM")),
    ("RevenueTTM", clean_numeric (dget d "RevenueTTM")),
    ("GrossProfitTTM", clean_numeric (dget d "GrossProfitTTM")),
    ("DilutedEPSTTM", clean_numeric (dget d "DilutedEPSTTM")),
    ("QuarterlyEarningsGrowthYOY", clean_numeric (dget d "QuarterlyEarningsGrowthYOY")),
    ("QuarterlyRevenueGrowthYOY", clean_numeric (dget d "QuarterlyRevenueGrowthYOY")),
    ("AnalystTargetPrice", clean_numeric (dget d "AnalystTargetPrice")),
    ("TrailingPE", clean_numeric (dget d "TrailingPE")),
    ("ForwardPE", clean_numeric (dget d "ForwardPE")),
    ("PriceToSalesRatioTTM", clean_numeric (dget d "PriceToSalesRatioTTM")),
    ("PriceToBookRatio", clean_numeric (dget d "PriceToBookRatio")),
    ("EVToRevenue", clean_numeric (dget d "EVToRevenue")),
    ("EVToEBITDA", clean_numeric (dget d "EVToEBITDA")),
    ("Beta", clean_numeric (dget d "Beta")),
    ("52WeekHigh", clean_numeric (dget d "52WeekHigh")),
    ("52WeekLow", clean_numeric (dget d "52WeekLow")),
    ("50DayMovingAverage", clean_numeric (dget d "50DayMovingAverage")),
    ("200DayMovingAverage", clean_numeric (dget d "200DayMovingAverage")),
    ("SharesOutstanding", clean_numeric (dget d "SharesOutstanding")),
    ("DividendDate", dd),
    ("ExDividendDate", xd)]

/-- `FinancialDataPipeline._map_yfinance_to_asset`
(data_collection_pipeline.py lines 382–405). -/
def map_yfinance_to_asset (symbol : String) (info : Dict) (asset_type : String) : Dict :=
  [("Symbol", some (.str symbol)),
   ("Name", dgetD info "longName" (.str symbol)),
   ("Description", dgetD info "longBusinessSummary" (.str "")),
   ("Exchange", dgetD info "exchange" (.str "")),
   ("Currency", dgetD info "currency" (.str "USD")),
   ("Country", dgetD info "country" (.str "")),
   ("Sector", dgetD info "sector" (.str "")),
   ("Industry", dgetD info "industry" (.str "")),
   ("AssetType", some (.str asset_type)),
   ("MarketCapitalization", dget info "marketCap"),
   ("PERatio", dget info "trailingPE"),
   ("BookValue", dget info "bookValue"),
   ("DividendYield", dget info "dividendYield"),
   ("EPS", dget info "trailingEps"),
   ("Beta", dget info "beta"),
   ("52WeekHigh", dget info "fiftyTwoWeekHigh"),
   ("52WeekLow", dget info "fiftyTwoWeekLow"),
   ("50DayMovingAverage", dget info "fiftyDayAverage"),
   ("200DayMovingAverage", dget info "twoHundredDayAverage"),
   ("SharesOutstanding", dget info "sharesOutstanding")]

/-- `FinancialDataPipeline._create_minimal_asset`
(data_collection_pipeline.py lines 407–414). -/
def create_minimal_asset (symbol : String) (asset_type : String) : Dict :=
  [("Symbol", some (.str symbol)),
   ("Name", some (.str symbol)),
   ("AssetType", some (.str asset_type)),
   ("Currency", some (.str "USD"))]

/-- Steps 1–3 of `FinancialDataPipeline.collect_and_insert_asset`
(data_collection_pipeline.py lines 68–84): whole-record source precedence.
`overview` is the result of `get_asset_overview_alpha_vantage` (never an
empty dict when `some`, since a usable payload contains `'Symbol'`); the
`elif yf_info:` branch fires on a non-empty yfinance info dict; otherwise
the minimal record is synthesized. -/
def selectAssetData (overview : Option Dict) (yf_info : Dict) (symbol : String)
    (asset_type : String) : Except PyError Dict :=
  match overview with
  | some d => map_alpha_vantage_to_asset d asset_type
  | none =>
      if yf_info.isEmpty then .ok (create_minimal_asset symbol asset_type)
      else .ok (map_yfinance_to_asset symbol yf_info asset_type)

/-! ## Persistence: the assets table -/

/-- One row of the `assets` table, in the column order of the
`INSERT OR REPLACE` statement in `FinancialDatabase.insert_asset`
(database_config.py lines 100–112): the `symbol` key column followed by the
remaining 42 columns. -/
structure AssetRow where
  symbol : Option PyVal
  fields : List (Option PyVal)
deriving DecidableEq, Repr

/-- The 43-value tuple bound into the `INSERT OR REPLACE` statement by
`FinancialDatabase.insert_asset` (database_config.py lines 114–158), built
with `clean_value`. The two `'date'`-kind calls can raise `TypeError`
(uncaught there), so the row construction is in `Except`. -/
def buildAssetRow (d : Dict) : Except PyError AssetRow := do
  let mcap ← clean_value (dget d "MarketCapitalization") "int"
  let ebitda ← clean_value (dget d "EBITDA") "int"
  let pe ← clean_value (dget d "PERatio") "float"
  let peg ← clean_value (dget d "PEGRatio") "float"
  let bv ← clean_value (dget d "BookValue") "float"
  let dps ← clean_value (dget d "DividendPerShare") "float"
  let dy ← clean_value (dget d "DividendYield") "float"
  let eps ← clean_value (dget d "EPS") "float"
  let rps ← clean_value (dget d "RevenuePerShareTTM") "float"
  let pm ← clean_value (dget d "ProfitMargin") "float"
  let om ← clean_value (dget d "OperatingMarginTTM") "float"
  let roa ← clean_value (dget d "ReturnOnAssetsTTM") "float"
  let roe ← clean_value (dget d "ReturnOnEquityTTM") "float"
  let rev ← clean_value (dget d "RevenueTTM") "int"
  let gp ← clean_value (dget d "GrossProfitTTM") "int"
  let deps ← clean_value (dget d "DilutedEPSTTM") "float"
  let qeg ← clean_value (dget d "QuarterlyEarningsGrowthYOY") "float"
  let qrg ← clean_value (dget d "QuarterlyRevenueGrowthYOY") "float"
  let atp ← clean_value (dget d "AnalystTargetPrice") "float"
  let tpe ← clean_value (dget d "TrailingPE") "float"
  let fpe ← clean_value (dget d "ForwardPE") "float"
  let pts ← clean_value (dget d "PriceToSalesRatioTTM") "float"
  let ptb ← clean_value (dget d "PriceToBookRatio") "float"
  let evr ← clean_value (dget d "EVToRevenue") "float"
  let eve ← clean_value (dget d "EVToEBITDA") "float"
  let beta ← clean_value (dget d "Beta") "float"
  let wh ← clean_value (dget d "52WeekHigh") "float"
  let wl ← clean_value (dget d "52WeekLow") "float"
  let ma50 ← clean_value (dget d "50DayMovingAverage") "float"
  let ma200 ← clean_value (dget d "200DayMovingAverage") "float"
  let sh ← clean_value (dget d "SharesOutstanding") "int"
  let ddate ← clean_value (dget d "DividendDate") "date"
  let xdate ← clean_value (dget d "ExDividendDate") "date"
  .ok { symbol := dget d "Symbol"
      , fields :=
          [dget d "Name", dget d "Description", dget d "CIK", dget d "Exchange",
           dgetD d "Currency" (.str "USD"), dget d "Country", dget d "Sector",
           dget d "Industry", dgetD d "AssetType" (.str "Stock"),
           mcap, ebitda, pe, peg, bv, dps, dy, eps, rps, pm, om, roa, roe,
           rev, gp, deps, qeg, qrg, atp, tpe, fpe, pts, ptb, evr, eve, beta,
           wh, wl, ma50, ma200, sh, ddate, xdate] }

/-- Modelled from the spec: `database_and_schema/schema.sql` is not under
`src/`; per spec section 3 the `assets` natural key is `symbol` (unique), so
SQLite `INSERT OR REPLACE INTO assets` deletes any row whose `symbol` equals
the new row's and appends the new row. SQL `NULL` keys never compare equal,
so a row with a `NULL` symbol conflicts with nothing and is appended. -/
def upsertAssets (tbl : List AssetRow) (r : AssetRow) : List AssetRow :=
  match r.symbol with
  | none => tbl ++ [r]
  | some _ => tbl.filter (fun q => q.symbol ≠ r.symbol) ++ [r]

/-- The outcome of executing a statement on the SQLite connection: success,
or a `sqlite3.Error` raised by the driver. -/
inductive DbOutcome where
  | ok
  | dbError
deriving DecidableEq, Repr

/-- `FinancialDatabase.insert_asset` (database_config.py lines 63–167):
builds the value tuple with `clean_value` and executes
`INSERT OR REPLACE INTO assets`. The surrounding `try` catches only
`sqlite3.Error` (logging it and leaving the table as it was), so a
`TypeError` from `clean_value` propagates to the caller, while a database
error is swallowed and the method returns normally. -/
def insert_asset (tbl : List AssetRow) (d : Dict) (exec : DbOutcome) :
    Except PyError (List AssetRow) :=
  match buildAssetRow d with
  | .error e => .error e
  | .ok r =>
      match exec with
      | .ok => .ok (upsertAssets tbl r)
      | .dbError => .ok tbl

/-- Two consecutive `insert_asset` calls on a healthy database connection,
as in re-collecting the same symbol. -/
def insertAssetTwice (tbl : List AssetRow) (d1 d2 : Dict) :
    Except PyError (List AssetRow) :=
  (insert_asset tbl d1 .ok).bind (fun t => insert_asset t d2 .ok)

/-- Step 4 of `FinancialDataPipeline.collect_and_insert_asset`
(data_collection_pipeline.py lines 85–92): the asset insert wrapped in
`try/except Exception`, setting the per-item success flag. The price-data
step (lines 93–101) is omitted here by taking `get_price_data_yfinance` to
have returned `None`, so the returned flag is exactly the asset-insert
outcome. Returns the table after the call and the `success` flag. -/
def collectInsertAssetStep (tbl : List AssetRow) (asset_data : Dict)
    (exec : DbOutcome) : List AssetRow × Bool :=
  match insert_asset tbl asset_data exec with
  | .ok t => (t, true)
  | .error _ => (tbl, false)

/-! ## Persistence: the daily_prices table -/

/-- One standardized price-bar row destined for `daily_prices`, keyed by
(symbol, date) — spec section 3 gives the composite natural key, the schema
file itself being outside `src/`. -/
structure PriceRow where
  symbol : String
  date : String
  openPrice : ℚ
  highPrice : ℚ
  lowPrice : ℚ
  closePrice : ℚ
  volume : ℤ
deriving DecidableEq, Repr

/-- Whether two price rows collide on the (symbol, date) natural key. -/
def priceKeyEq (a b : PriceRow) : Bool :=
  a.symbol = b.symbol && a.date = b.date

/-- `DataFrame.to_sql(..., if_exists='append', index=False, method=m)` as
pandas implements it: the `method` argument must be `None`, `'multi'`, or a
callable — any other string makes pandas raise
`ValueError("Invalid parameter method: ...")` before any row is written.
With a valid method, `if_exists='append'` issues plain `INSERT`s, so a row
whose (symbol, date) key already exists in the table raises
`sqlite3.IntegrityError` (UNIQUE constraint) and the transaction writes
nothing. -/
def pandas_to_sql (method : Option String) (tbl rows : List PriceRow) :
    Except String (List PriceRow) :=
  match method with
  | some m =>
      if m = "multi" then
        if rows.any (fun r => tbl.any (priceKeyEq r)) ∨
           ¬ (rows.map (fun r => (r.symbol, r.date))).Nodup then
          .error "IntegrityError: UNIQUE constraint failed"
        else .ok (tbl ++ rows)
      else .error ("Invalid parameter method: " ++ m)
  | none =>
      if rows.any (fun r => tbl.any (priceKeyEq r)) ∨
         ¬ (rows.map (fun r => (r.symbol, r.date))).Nodup then
        .error "IntegrityError: UNIQUE constraint failed"
      else .ok (tbl ++ rows)

/-- `FinancialDatabase.insert_daily_prices` (database_config.py lines
180–231): after standardizing the DataFrame it calls
`df.to_sql('daily_prices', conn, if_exists='append', index=False,
method='ignore')`; the blanket `except Exception` prints the error and
returns, leaving the table untouched on any failure. -/
def insert_daily_prices (tbl : List PriceRow) (df : List PriceRow) : List PriceRow :=
  match pandas_to_sql (some "ignore") tbl df with
  | .ok t => t
  | .error _ => tbl

/-! ## Rate-limited batch runner -/

/-- One observable step of `batch_collect_with_delay`: an external
collection call for a symbol, or a `time.sleep(delay)`. -/
inductive Event where
  | call (symbol : String)
  | sleep (delay : ℚ)
deriving DecidableEq, Repr

/-- Whether an event is a rate-limit sleep. -/
def Event.isSleep : Event → Bool
  | .sleep _ => true
  | .call _ => false

/-- The per-item result dictionary `results`, a Python dict keyed by symbol:
assignment to an existing key overwrites its value in place, a new key is
appended. -/
def dictInsert {β : Type} (d : List (String × Option β)) (k : String)
    (v : Option β) : List (String × Option β) :=
  if d.any (fun p => p.1 = k) then
    d.map (fun p => if p.1 = k then (k, v) else p)
  else d ++ [(k, v)]

/-- The outcome of `result = collection_func(symbol)` under the `try` of
`batch_collect_with_delay`: an exception is caught and recorded as `None`;
otherwise the function's own return value (itself possibly `None`) is
recorded. -/
def itemOutcome {β : Type} (f : String → Except String (Option β))
    (s : String) : Option β :=
  match f s with
  | .error _ => none
  | .ok r => r

/-- The loop body of `FinancialDataCollector.batch_collect_with_delay`
(data_collection_config.py lines 271–290): `i` is the running index and
`total` the initial length; after each item except the last (and only when
`delay > 0`) a `time.sleep(delay)` is issued. Accumulates the results dict
and the call/sleep trace. -/
def batchLoop {β : Type} (f : String → Except String (Option β)) (delay : ℚ)
    (total : Nat) : Nat → List (String × Option β) → List String →
    List (String × Option β) × List Event
  | _, results, [] => (results, [])
  | i, results, s :: rest =>
      let results' := dictInsert results s (itemOutcome f s)
      let tail := batchLoop f delay total (i + 1) results' rest
      (tail.1, Event.call s ::
        ((if i < total - 1 ∧ 0 < delay then [Event.sleep delay] else []) ++ tail.2))

/-- `FinancialDataCollector.batch_collect_with_delay`
(data_collection_config.py lines 255–295): returns the results dict and the
observable call/sleep trace. -/
def batch_collect_with_delay {β : Type} (f : String → Except String (Option β))
    (symbols : List String) (delay : ℚ) :
    List (String × Option β) × List Event :=
  batchLoop f delay symbols.length 0 [] symbols

/-- The `successful` count logged at the end of `batch_collect_with_delay`
(data_collection_config.py line 292): the number of values in the results
dict that are not `None`. -/
def batchSuccessCount {β : Type} (f : String → Except String (Option β))
    (symbols : List String) (delay : ℚ) : Nat :=
  ((batch_collect_with_delay f symbols delay).1.filter (fun p => p.2.isSome)).length

/-! ## Derived metrics: realized volatility

Price and volatility values are modelled over `ℝ`; a pandas `NaN` cell is
modelled as `Option.none`. -/

/-- Tail recursion for `pct_change`: returns against the previous price. -/
noncomputable def pctChangeFrom (prev : ℝ) : List ℝ → List (Option ℝ)
  | [] => []
  | c :: rest => some ((c - prev) / prev) :: pctChangeFrom c rest

/-- `Series.pct_change()` on the close-price column
(data_collection_config.py line 232): simple period-over-period returns,
`NaN` in the first position. -/
noncomputable def pct_change : List ℝ → List (Option ℝ)
  | [] => []
  | p :: rest => none :: pctChangeFrom p rest

/-- Join a window of cells: `some` of the values when no cell is `NaN`,
otherwise `none` (a `NaN` inside a rolling window poisons the aggregate). -/
def allSome : List (Option ℝ) → Option (List ℝ)
  | [] => some []
  | none :: _ => none
  | some x :: rest => (allSome rest).map (fun l => x :: l)

/-- The mean of a list of reals (0 on the empty list, never hit with a
nonempty window). -/
noncomputable def listMean (l : List ℝ) : ℝ := l.sum / l.length

/-- The sample standard deviation `sqrt(Σ (x − mean)² / (n − 1))` used by
pandas `Series.std()` (ddof = 1). -/
noncomputable def sampleStdev (l : List ℝ) : ℝ :=
  Real.sqrt ((l.map (fun x => (x - listMean l) ^ 2)).sum / ((l.length : ℝ) - 1))

/-- `Series.rolling(window=W).std()` at index `i`
(data_collection_config.py line 236): the window is the `W` cells ending at
`i`; with fewer than `W` cells available, with a `NaN` inside the window, or
with `ddof = 1` on a single observation, the result is `NaN`. -/
noncomputable def rollingStdAt (W : Nat) (xs : List (Option ℝ)) (i : Nat) : Option ℝ :=
  let window := (xs.take (i + 1)).drop (i + 1 - W)
  if window.length < W then none
  else match allSome window with
       | none => none
       | some vals => if vals.length ≤ 1 then none else some (sampleStdev vals)

/-- `FinancialDataCollector.calculate_realized_volatility`
(data_collection_config.py lines 218–253): annualized rolling standard
deviation of the simple returns, `NaN` rows removed by `dropna()`. Each
emitted pair is (row position in the price series, volatility value). -/
noncomputable def calculate_realized_volatility (prices : List ℝ) (W : Nat) :
    List (Nat × ℝ) :=
  let returns := pct_change prices
  (List.range returns.length).filterMap (fun i =>
    match rollingStdAt W returns i with
    | none => none
    | some x => some (i, x * Real.sqrt 252))

/-- The return at position `t ≥ 1` of the price series, written as the spec
writes it: `(p_t − p_(t−1)) / p_(t−1)`. -/
noncomputable def specReturn (prices : List ℝ) (t : Nat) : ℝ :=
  (prices.getD t 0 - prices.getD (t - 1) 0) / prices.getD (t - 1) 0

/-- The volatility rows as spec section 8 states them: for each position `t`
with a full trailing window of `W` returns (`W ≤ t`), the value
`stdev(returns[t−W+1..t]) × sqrt(252)`; nothing earlier. The sample standard
deviation requires at least two observations (pandas `ddof = 1`), so for
`W ≤ 1` no row is defined. -/
noncomputable def specVolatilityRows (prices : List ℝ) (W : Nat) : List (Nat × ℝ) :=
  (List.range prices.length).filterMap (fun t =>
    if 2 ≤ W ∧ W ≤ t then
      some (t, sampleStdev ((List.range W).map (fun j => specReturn prices (t - W + 1 + j)))
               * Real.sqrt 252)
    else none)

/-! ## Derived metrics: sector aggregation -/

/-- The columns of an `assets` row read by `update_sector_performance`. -/
structure SectorAsset where
  sector : Option String
  isActive : Bool
  marketCap : Option ℤ
  pe : Option ℚ
  divYield : Option ℚ
deriving DecidableEq, Repr

/-- The rows matched by `WHERE sector = ? AND is_active = TRUE` in the
per-sector aggregate query (data_collection_pipeline.py lines 195–203). -/
def activeInSector (assets : List SectorAsset) (s : String) : List SectorAsset :=
  assets.filter (fun a => a.sector = some s ∧ a.isActive)

/-- SQL `SUM` over an integer column: `NULL`s are excluded, and the result
is `NULL` when no non-`NULL` value exists. -/
def sqlSumInt (xs : List ℤ) : Option ℤ :=
  if xs.isEmpty then none else some xs.sum

/-- SQL `AVG` over a numeric column: `NULL`s are excluded, `NULL` when no
non-`NULL` value exists. -/
def sqlAvg (xs : List ℚ) : Option ℚ :=
  if xs.isEmpty then none else some (xs.sum / xs.length)

/-- One row of the `sector_performance` table, keyed by (sector, date) —
spec section 3 gives the composite natural key, the schema file itself
being outside `src/`. -/
structure SectorRow where
  sector : String
  date : String
  numberOfAssets : Nat
  totalMarketCap : Option ℤ
  avgPe : Option ℚ
  avgDivYield : Option ℚ
deriving DecidableEq, Repr

/-- The record appended to `sector_records` for one sector
(data_collection_pipeline.py lines 205–216): `COUNT(*)` over the matched
rows, `SUM(market_capitalization)`, `AVG(pe_ratio)`,
`AVG(dividend_yield)`, stamped with the collection date. -/
def sectorRecordFor (assets : List SectorAsset) (s : String) (today : String) : SectorRow :=
  let rows := activeInSector assets s
  { sector := s
  , date := today
  , numberOfAssets := rows.length
  , totalMarketCap := sqlSumInt (rows.filterMap (fun a => a.marketCap))
  , avgPe := sqlAvg (rows.filterMap (fun a => a.pe))
  , avgDivYield := sqlAvg (rows.filterMap (fun a => a.divYield)) }

/-- `SELECT DISTINCT sector FROM assets WHERE sector IS NOT NULL AND
sector != '' AND is_active = TRUE` followed by pandas `.unique()`
(data_collection_pipeline.py lines 183–193): the distinct non-null,
non-empty sectors of active assets, first occurrence kept. -/
def distinctSectors (assets : List SectorAsset) : List String :=
  (assets.filterMap (fun a =>
    if a.isActive ∧ a.sector ≠ none ∧ a.sector ≠ some "" then a.sector else none)).foldl
    (fun acc b => if b ∈ acc then acc else acc ++ [b]) []

/-- The (sector, date) natural key of a sector-performance row. -/
def sectorKey (r : SectorRow) : String × String := (r.sector, r.date)

/-- Modelled from the spec: `sector_performance`'s natural key is
(sector, date) per spec section 3 (`schema.sql` is outside `src/`), so
`INSERT OR REPLACE INTO sector_performance` deletes any row with the same
(sector, date) and appends the new one. -/
def upsertSector (tbl : List SectorRow) (r : SectorRow) : List SectorRow :=
  tbl.filter (fun q => ¬(q.sector = r.sector ∧ q.date = r.date)) ++ [r]

/-- `FinancialDataPipeline.update_sector_performance`
(data_collection_pipeline.py lines 176–244): computes one record per
distinct active sector and upserts each into `sector_performance`; with no
sectors the method returns early and the table is untouched. -/
def update_sector_performance (tbl : List SectorRow) (assets : List SectorAsset)
    (today : String) : List SectorRow :=
  let secs := distinctSectors assets
  if secs.isEmpty then tbl
  else (secs.map (fun s => sectorRecordFor assets s today)).foldl upsertSector tbl

/-! ## Concrete example data used by witnesses and counterexamples -/

/-- A small canonical asset record, as `insert_asset` receives it. -/
def exDict1 : Dict := [("Symbol", some (.str "AAPL"))]

/-- A second record for the same symbol with an extra field. -/
def exDict2 : Dict := [("Symbol", some (.str "AAPL")), ("Name", some (.str "Apple Inc"))]

/-- The assets-table row produced from `exDict1`. -/
def exRow1 : AssetRow :=
  { symbol := some (.str "AAPL")
  , fields := [none, none, none, none, some (.str "USD"), none, none, none,
               some (.str "Stock")] ++ List.replicate 33 none }

/-- The assets-table row produced from `exDict2`. -/
def exRow2 : AssetRow :=
  { symbol := some (.str "AAPL")
  , fields := [some (.str "Apple Inc"), none, none, none, some (.str "USD"),
               none, none, none, some (.str "Stock")] ++ List.replicate 33 none }

/-- A canonical asset record whose `DividendDate` is a `datetime.date`
object — exactly what `_map_alpha_vantage_to_asset` produces for a
dividend-paying stock before handing the record to `insert_asset`. -/
def exDateDict : Dict :=
  [("Symbol", some (.str "KO")), ("DividendDate", some (.date 2024 2 15))]

/-- A concrete standardized price bar. -/
def exPriceRow : PriceRow :=
  { symbol := "AAPL", date := "2024-01-02", openPrice := 185, highPrice := 186
  , lowPrice := 184, closePrice := 185, volume := 1000 }

/-- A different bar for the same (symbol, date) key. -/
def exPriceRow2 : PriceRow :=
  { symbol := "AAPL", date := "2024-01-02", openPrice := 190, highPrice := 191
  , lowPrice := 189, closePrice := 190, volume := 2000 }

/-- A usable Alpha Vantage overview payload. -/
def exOverview : Dict := [("Symbol", some (.str "AAPL")), ("Name", some (.str "Apple"))]

/-- A non-empty yfinance info payload. -/
def exYfInfo : Dict :=
  [("longName", some (.str "Apple Inc")), ("marketCap", some (.num 3000000000000))]

/-- A collection function that raises on symbol "B" and succeeds elsewhere. -/
def exCollect : String → Except String (Option ℕ) :=
  fun s => if s = "B" then .error "boom" else .ok (some 1)

/-- A collection function that always succeeds with data. -/
def exCollectOk : String → Except String (Option ℕ) :=
  fun _ => .ok (some 1)

/-- The assets-table row that the minimal fallback record maps to: symbol
and name set to the symbol, asset type as requested, currency defaulted to
USD, and every one of the 33 coerced fundamental/date columns null. -/
def minimalAssetRow (s t : String) : AssetRow :=
  { symbol := some (.str s)
  , fields := [some (.str s), none, none, none, some (.str "USD"), none, none,
               none, some (.str t)] ++ List.replicate 33 none }

/-- A small assets table for the sector-aggregation witness: two active
Tech assets (one with a null market cap), one inactive Health asset. -/
def exAssets : List SectorAsset :=
  [{ sector := some "Tech", isActive := true, marketCap := some 100
   , pe := some 10, divYield := none },
   { sector := some "Tech", isActive := true, marketCap := none
   , pe := none, divYield := some 1 },
   { sector := some "Health", isActive := false, marketCap := some 5
   , pe := none, divYield := none }]

end FMA

namespace FMA

/-! ## Claim C1: upsert semantics of the assets table -/

/-- `upsertAssets` on a row with a non-null symbol rewrites to
filter-and-append. -/
theorem upsertAssets_some (t : List AssetRow) (r : AssetRow) (s : PyVal)
    (hs : r.symbol = some s) :
    upsertAssets t r = t.filter (fun q => q.symbol ≠ r.symbol) ++ [r] := by
  unfold upsertAssets
  rw [hs]

/-- After an upsert of a non-null-symbol row, that symbol's rows are exactly
the new row. -/
theorem upsertAssets_filter_key (t : List AssetRow) (r : AssetRow) (s : PyVal)
    (hs : r.symbol = some s) :
    (upsertAssets t r).filter (fun q => q.symbol = r.symbol) = [r] := by
  rw [upsertAssets_some t r s hs, List.filter_append, List.filter_filter]
  have h1 : (t.filter fun a =>
      decide (a.symbol = r.symbol) && decide (a.symbol ≠ r.symbol)) = [] := by
    apply List.filter_eq_nil_iff.mpr
    intro a _
    by_cases h : a.symbol = r.symbol <;> simp [h]
  rw [h1]
  simp

/-- Claim C1 (amended): for two canonical records whose field coercion
succeeds (no date-object fields) and which share the same non-null symbol,
two consecutive `insert_asset` calls leave exactly one row for that symbol,
holding the second record's values. -/
theorem insertAsset_upsert_last_write_wins
    (tbl : List AssetRow) (d1 d2 : Dict) (r1 r2 : AssetRow) (s : PyVal)
    (h1 : buildAssetRow d1 = .ok r1) (h2 : buildAssetRow d2 = .ok r2)
    (_hsym : r1.symbol = r2.symbol) (hs : r2.symbol = some s) :
    insertAssetTwice tbl d1 d2 = .ok (upsertAssets (upsertAssets tbl r1) r2) ∧
    (upsertAssets (upsertAssets tbl r1) r2).filter
      (fun q => q.symbol = r2.symbol) = [r2] := by
  constructor
  · simp [insertAssetTwice, insert_asset, h1, h2, Except.bind]
  · exact upsertAssets_filter_key _ r2 s hs

/-- Witness for `insertAsset_upsert_last_write_wins` at two concrete records
for the symbol AAPL. -/
theorem insertAsset_upsert_last_write_wins_witness :
    buildAssetRow exDict1 = .ok exRow1 ∧ buildAssetRow exDict2 = .ok exRow2 ∧
    exRow1.symbol = exRow2.symbol ∧ exRow2.symbol = some (.str "AAPL") ∧
    (insertAssetTwice [] exDict1 exDict2
        = .ok (upsertAssets (upsertAssets [] exRow1) exRow2) ∧
     (upsertAssets (upsertAssets [] exRow1) exRow2).filter
        (fun q => q.symbol = exRow2.symbol) = [exRow2]) :=
  ⟨by decide, by decide, by decide, by decide,
   insertAsset_upsert_last_write_wins [] exDict1 exDict2 exRow1 exRow2 (.str "AAPL")
     (by decide) (by decide) (by decide) (by decide)⟩

/-- Counterexample to claim C1 as stated: a canonical record carrying a
`datetime.date` value (as the Alpha Vantage mapper produces) makes
`insert_asset` raise an uncaught `TypeError` both times, so after two writes
there is no row at all for the symbol instead of exactly one. -/
theorem insertAsset_date_object_breaks_upsert :
    insert_asset [] exDateDict .ok = .error .typeError ∧
    insertAssetTwice [] exDateDict exDateDict = .error .typeError := by
  decide

/-! ## Claim C2: daily_prices writes -/

/-- `insert_daily_prices` never changes the table: pandas rejects
`method='ignore'` with a `ValueError` before writing anything, and the
blanket `except` swallows it. -/
theorem insert_daily_prices_fixed (tbl df : List PriceRow) :
    insert_daily_prices tbl df = tbl := by
  simp [insert_daily_prices, pandas_to_sql]

/-- Claim C2 (code bug, evaluated at the failing input): inserting a price
bar writes nothing, and re-inserting a bar for an existing (symbol, date)
key leaves the old row in place instead of replacing it. -/
theorem insert_daily_prices_never_writes :
    insert_daily_prices [] [exPriceRow] = [] ∧
    insert_daily_prices [exPriceRow] [exPriceRow2] = [exPriceRow] :=
  ⟨insert_daily_prices_fixed [] [exPriceRow],
   insert_daily_prices_fixed [exPriceRow] [exPriceRow2]⟩

/-! ## Claim C10: database errors are swallowed below the success flag -/

/-- Claim C10: when the assets write fails with a database error,
`insert_asset` catches it internally (returning with the table unchanged),
so the caller's `except` branch never fires and
`collect_and_insert_asset` reports success for the item. -/
theorem db_error_swallowed_success_flag_true
    (tbl : List AssetRow) (d : Dict) (r : AssetRow)
    (h : buildAssetRow d = .ok r) :
    insert_asset tbl d .dbError = .ok tbl ∧
    collectInsertAssetStep tbl d .dbError = (tbl, true) := by
  constructor
  · simp [insert_asset, h]
  · simp [collectInsertAssetStep, insert_asset, h]

/-- Witness for `db_error_swallowed_success_flag_true` at a concrete
record. -/
theorem db_error_swallowed_success_flag_true_witness :
    buildAssetRow exDict1 = .ok exRow1 ∧
    (insert_asset [] exDict1 .dbError = .ok [] ∧
     collectInsertAssetStep [] exDict1 .dbError = ([], true)) :=
  ⟨by decide, db_error_swallowed_success_flag_true [] exDict1 exRow1 (by decide)⟩

/-! ## Claim C3: primary usability gate and whole-record secondary precedence -/

/-- Claim C3: an Alpha Vantage payload is kept exactly when it carries the
`'Symbol'` field and neither error/throttle marker; and when the primary
yields nothing while the yfinance payload is non-empty, the selected record
is exactly the yfinance mapping — not a per-field merge, not the minimal
stub. -/
theorem primary_usability_and_secondary_precedence
    (d yf : Dict) (s t : String) (hyf : yf.isEmpty = false) :
    (get_asset_overview_alpha_vantage true (some d) = some d ↔ avUsable d = true) ∧
    get_asset_overview_alpha_vantage true none = none ∧
    get_asset_overview_alpha_vantage false (some d) = none ∧
    selectAssetData none yf s t = .ok (map_yfinance_to_asset s yf t) ∧
    selectAssetData none yf s t ≠ .ok (create_minimal_asset s t) := by
  refine ⟨?_, rfl, rfl, ?_, ?_⟩
  · unfold get_asset_overview_alpha_vantage
    by_cases h : avUsable d = true <;> simp [h]
  · simp [selectAssetData, hyf]
  · simp only [selectAssetData, hyf, Bool.false_eq_true, if_false]
    intro h
    have h2 : map_yfinance_to_asset s yf t = create_minimal_asset s t :=
      Except.ok.inj h
    have h3 := congrArg List.length h2
    simp [map_yfinance_to_asset, create_minimal_asset] at h3

/-- Witness for `primary_usability_and_secondary_precedence` at a usable
overview payload and a concrete non-empty yfinance payload. -/
theorem primary_usability_and_secondary_precedence_witness :
    exYfInfo.isEmpty = false ∧
    ((get_asset_overview_alpha_vantage true (some exOverview) = some exOverview
        ↔ avUsable exOverview = true) ∧
     get_asset_overview_alpha_vantage true none = none ∧
     get_asset_overview_alpha_vantage false (some exOverview) = none ∧
     selectAssetData none exYfInfo "AAPL" "Stock"
        = .ok (map_yfinance_to_asset "AAPL" exYfInfo "Stock") ∧
     selectAssetData none exYfInfo "AAPL" "Stock"
        ≠ .ok (create_minimal_asset "AAPL" "Stock")) :=
  ⟨by decide,
   primary_usability_and_secondary_precedence exOverview exYfInfo "AAPL" "Stock"
     (by decide)⟩

/-! ## Claim C4: total fallback to the minimal record -/

/-- Claim C4: with the primary unavailable and the secondary empty, the
minimal record is synthesized and inserted without any exception: the
persisted row exists, its symbol and asset type are the requested identity,
and all 33 coerced fundamental/date columns are null. -/
theorem both_sources_unavailable_minimal_record_persisted
    (tbl : List AssetRow) (s t : String) :
    selectAssetData none [] s t = .ok (create_minimal_asset s t) ∧
    buildAssetRow (create_minimal_asset s t) = .ok (minimalAssetRow s t) ∧
    insert_asset tbl (create_minimal_asset s t) .ok
      = .ok (upsertAssets tbl (minimalAssetRow s t)) ∧
    minimalAssetRow s t ∈ upsertAssets tbl (minimalAssetRow s t) ∧
    (minimalAssetRow s t).symbol = some (.str s) ∧
    (minimalAssetRow s t).fields.getD 8 none = some (.str t) ∧
    (minimalAssetRow s t).fields.drop 9 = List.replicate 33 none := by
  refine ⟨rfl, rfl, rfl, ?_, rfl, rfl, rfl⟩
  simp [upsertAssets, minimalAssetRow]

/-! ## Claim C5: field-coercion totality -/

set_option maxRecDepth 4000 in
/-- Claim C5 (code bug, evaluated at the failing input): every sentinel maps
to null for every target kind, well-formed numeric strings parse (with
truncation for the integer kind), unparsable strings and wrong-typed inputs
yield null for the numeric kinds — but for the date kind a truthy non-string
value makes `clean_value` raise an uncaught `TypeError` (its `except` names
only `ValueError`), so the function is not total as claimed. -/
theorem clean_value_sentinels_parse_and_date_type_error :
    (["float", "int", "date", "str"].all (fun k =>
      (clean_value (some (.str "")) k == .ok none) &&
      (clean_value (some (.str "None")) k == .ok none) &&
      (clean_value (some (.str "N/A")) k == .ok none) &&
      (clean_value (some (.str "-")) k == .ok none) &&
      (clean_value none k == .ok none))) = true ∧
    clean_value (some (.str "123.45")) "float" = .ok (some (.num (2469 / 20))) ∧
    clean_value (some (.str "28.5")) "int" = .ok (some (.num 28)) ∧
    clean_value (some (.str "-28.5")) "int" = .ok (some (.num (-28))) ∧
    clean_value (some (.str "2024-02-15")) "date" = .ok (some (.date 2024 2 15)) ∧
    clean_value (some (.str "not a number")) "float" = .ok none ∧
    clean_value (some (.date 2024 2 15)) "float" = .ok none ∧
    clean_numeric (some (.str "123.45")) = some (.num (2469 / 20)) ∧
    clean_value (some (.num (7 / 2))) "date" = .error .typeError ∧
    clean_date (some (.num (7 / 2))) = .error .typeError := by
  refine ⟨by decide, ?_, ?_, ?_, by decide, by decide, by decide, ?_, ?_, ?_⟩
  · with_unfolding_all rfl
  · with_unfolding_all decide
  · with_unfolding_all decide
  · with_unfolding_all rfl
  · with_unfolding_all decide
  · with_unfolding_all decide

/-! ## Claims C6 and C7: the rate-limited batch runner -/

/-- Assigning a key absent from the results dict appends the entry. -/
theorem dictInsert_fresh {β : Type} (d : List (String × Option β)) (k : String)
    (v : Option β) (h : ∀ p ∈ d, p.1 ≠ k) :
    dictInsert d k v = d ++ [(k, v)] := by
  unfold dictInsert
  rw [if_neg]
  simp only [List.any_eq_true, not_exists, not_and]
  intro p hp
  simpa using h p hp

/-- The results dict built by the batch loop over distinct fresh symbols:
one entry per symbol in input order, holding that symbol's outcome. -/
theorem batchLoop_results {β : Type} (f : String → Except String (Option β))
    (delay : ℚ) (total : Nat) (l : List String) :
    ∀ (i : Nat) (acc : List (String × Option β)), l.Nodup →
      (∀ s ∈ l, ∀ p ∈ acc, p.1 ≠ s) →
      (batchLoop f delay total i acc l).1
        = acc ++ l.map (fun s => (s, itemOutcome f s)) := by
  induction l with
  | nil => intro i acc _ _; simp [batchLoop]
  | cons s rest ih =>
    intro i acc hnd hfresh
    have hx : dictInsert acc s (itemOutcome f s) = acc ++ [(s, itemOutcome f s)] :=
      dictInsert_fresh acc s _ (fun p hp => hfresh s (by simp) p hp)
    show (batchLoop f delay total (i + 1) (dictInsert acc s (itemOutcome f s)) rest).1
      = acc ++ (s, itemOutcome f s) :: rest.map (fun x => (x, itemOutcome f x))
    rw [hx, ih (i + 1) (acc ++ [(s, itemOutcome f s)]) (List.Nodup.of_cons hnd)]
    · simp
    · intro x hx p hp
      rcases List.mem_append.mp hp with hpa | hpb
      · exact hfresh x (List.mem_cons_of_mem s hx) p hpa
      · have hps : p = (s, itemOutcome f s) := by simpa using hpb
        rw [hps]
        intro he
        have hsx : s = x := he
        exact (List.nodup_cons.mp hnd).1 (hsx ▸ hx)

/-- Claim C6 (amended with distinct work items): each item is attempted and
recorded in input order — an item whose collection function raises is
recorded with a null result — the batch never aborts, and the reported
success count equals the number of items with a non-null outcome. -/
theorem batch_tolerates_failures_and_counts {β : Type}
    (f : String → Except String (Option β)) (symbols : List String) (delay : ℚ)
    (hnd : symbols.Nodup) :
    (batch_collect_with_delay f symbols delay).1
      = symbols.map (fun s => (s, itemOutcome f s)) ∧
    batchSuccessCount f symbols delay
      = (symbols.filter (fun s => (itemOutcome f s).isSome)).length := by
  have h1 : (batch_collect_with_delay f symbols delay).1
      = symbols.map (fun s => (s, itemOutcome f s)) := by
    have := batchLoop_results f delay symbols.length symbols 0 [] hnd (by simp)
    simpa [batch_collect_with_delay] using this
  refine ⟨h1, ?_⟩
  unfold batchSuccessCount
  rw [h1, List.filter_map _ symbols, List.length_map]
  rfl

/-- Witness for `batch_tolerates_failures_and_counts`: a three-item batch
whose middle item raises. -/
theorem batch_tolerates_failures_and_counts_witness :
    (["A", "B", "C"].Nodup) ∧
    ((batch_collect_with_delay exCollect ["A", "B", "C"] 12).1
        = ["A", "B", "C"].map (fun s => (s, itemOutcome exCollect s)) ∧
     batchSuccessCount exCollect ["A", "B", "C"] 12
        = (["A", "B", "C"].filter (fun s => (itemOutcome exCollect s).isSome)).length) :=
  ⟨by decide, batch_tolerates_failures_and_counts exCollect ["A", "B", "C"] 12 (by decide)⟩

/-- Counterexample to claim C6 as stated, at a duplicated work item: both
occurrences of "A" succeed with data, yet the reported count is 1 of 2 —
the results dict collapses duplicate symbols, so the batch outcome is not
the count of successes out of the total number of items. -/
theorem batch_duplicate_symbols_success_miscount :
    batchSuccessCount exCollectOk ["A", "A"] 12 = 1 ∧
    (["A", "A"].filter (fun s => (itemOutcome exCollectOk s).isSome)).length = 2 := by
  with_unfolding_all decide

/-- The trace produced by the batch loop at any start index consistent with
the total: the calls in input order, one sleep between consecutive calls. -/
theorem batchLoop_trace {β : Type} (f : String → Except String (Option β))
    (delay : ℚ) (hd : 0 < delay) (l : List String) :
    ∀ (i total : Nat) (acc : List (String × Option β)), total = i + l.length →
      (batchLoop f delay total i acc l).2
        = List.intersperse (Event.sleep delay) (l.map Event.call) := by
  induction l with
  | nil => intro i total acc _; simp [batchLoop]
  | cons s rest ih =>
    intro i total acc htot
    show Event.call s ::
        ((if i < total - 1 ∧ 0 < delay then [Event.sleep delay] else []) ++
          (batchLoop f delay total (i + 1) (dictInsert acc s (itemOutcome f s)) rest).2)
      = List.intersperse (Event.sleep delay) ((s :: rest).map Event.call)
    cases rest with
    | nil =>
      have hc : ¬ (i < total - 1 ∧ 0 < delay) := by
        rintro ⟨h1, -⟩
        subst htot
        simp at h1
      simp [batchLoop, hc]
    | cons r rs =>
      have hc : i < total - 1 ∧ 0 < delay := by
        refine ⟨?_, hd⟩
        subst htot
        simp only [List.length_cons]
        omega
      rw [if_pos hc,
        ih (i + 1) total (dictInsert acc s (itemOutcome f s))
          (by subst htot; simp only [List.length_cons]; omega)]
      simp [List.intersperse_cons_cons]

/-- The number of sleeps in a trace of calls interspersed with sleeps is one
less than the number of calls. -/
theorem intersperse_sleep_length (delay : ℚ) (l : List String) :
    ((List.intersperse (Event.sleep delay) (l.map Event.call)).filter
      Event.isSleep).length = l.length - 1 := by
  induction l with
  | nil => simp
  | cons s rest ih =>
    cases rest with
    | nil => simp [Event.isSleep]
    | cons r rs =>
      simp only [List.map_cons, List.intersperse_cons_cons, List.filter_cons] at ih ⊢
      simp only [Event.isSleep] at ih ⊢
      simpa using ih

/-- Claim C7: with a positive delay, the batch trace is exactly the calls in
input order with a single delay-`D` sleep between each pair of consecutive
calls — never before the first, never after the last — hence N−1 sleeps. -/
theorem batch_trace_calls_in_order_with_delays {β : Type}
    (f : String → Except String (Option β)) (symbols : List String) (delay : ℚ)
    (hd : 0 < delay) :
    (batch_collect_with_delay f symbols delay).2
      = List.intersperse (Event.sleep delay) (symbols.map Event.call) ∧
    ((batch_collect_with_delay f symbols delay).2.filter Event.isSleep).length
      = symbols.length - 1 := by
  have h1 := batchLoop_trace f delay hd symbols 0 symbols.length [] (by simp)
  refine ⟨?_, ?_⟩
  · simpa [batch_collect_with_delay] using h1
  · rw [show (batch_collect_with_delay f symbols delay).2
        = List.intersperse (Event.sleep delay) (symbols.map Event.call) from by
          simpa [batch_collect_with_delay] using h1]
    exact intersperse_sleep_length delay symbols

/-- Witness for `batch_trace_calls_in_order_with_delays`: a three-item batch
with the default 12-second delay. -/
theorem batch_trace_calls_in_order_with_delays_witness :
    (0 : ℚ) < 12 ∧
    ((batch_collect_with_delay exCollect ["A", "B", "C"] 12).2
        = List.intersperse (Event.sleep 12) (["A", "B", "C"].map Event.call) ∧
     ((batch_collect_with_delay exCollect ["A", "B", "C"] 12).2.filter
        Event.isSleep).length = (["A", "B", "C"] : List String).length - 1) :=
  ⟨by norm_num,
   batch_trace_calls_in_order_with_delays exCollect ["A", "B", "C"] 12 (by norm_num)⟩

/-! ## Claim C9: sector aggregation -/

/-- Accumulating distinct values keeps the accumulator duplicate-free. -/
theorem foldl_distinct_nodup (l : List String) :
    ∀ acc : List String, acc.Nodup →
      (l.foldl (fun acc b => if b ∈ acc then acc else acc ++ [b]) acc).Nodup := by
  induction l with
  | nil => intro acc h; simpa
  | cons b rest ih =>
    intro acc h
    simp only [List.foldl_cons]
    by_cases hb : b ∈ acc
    · rw [if_pos hb]; exact ih acc h
    · rw [if_neg hb]
      refine ih _ ?_
      simp only [List.nodup_append, List.nodup_cons, List.not_mem_nil,
        not_false_iff, List.nodup_nil, and_true, true_and]
      constructor
      · exact h
      · intro a ha
        simp only [List.mem_singleton]
        intro hab
        exact hb (hab ▸ ha)

/-- The distinct-sector list is duplicate-free. -/
theorem distinctSectors_nodup (assets : List SectorAsset) :
    (distinctSectors assets).Nodup :=
  foldl_distinct_nodup _ [] List.nodup_nil

/-- Folding upserts of records with pairwise-distinct keys over a table
removes the rows those keys shadow and appends the records in order. -/
theorem foldl_upsertSector (rs : List SectorRow) :
    ∀ t : List SectorRow, (rs.map sectorKey).Nodup →
      rs.foldl upsertSector t
        = t.filter (fun q => sectorKey q ∉ rs.map sectorKey) ++ rs := by
  induction rs with
  | nil => intro t _; simp
  | cons r rest ih =>
    intro t hnd
    simp only [List.foldl_cons]
    rw [ih (upsertSector t r) (by simpa using (List.nodup_cons.mp (by simpa using hnd)).2)]
    unfold upsertSector
    rw [List.filter_append, List.filter_filter]
    have hr : List.filter (fun q => decide (sectorKey q ∉ rest.map sectorKey)) [r] = [r] := by
      have hmem : sectorKey r ∉ rest.map sectorKey :=
        (List.nodup_cons.mp (by simpa using hnd)).1
      simp only [List.filter_cons, List.filter_nil, decide_eq_true_eq]
      rw [if_pos hmem]
    rw [hr]
    have hpred : ∀ q : SectorRow,
        (decide (sectorKey q ∉ rest.map sectorKey) &&
          decide ¬(q.sector = r.sector ∧ q.date = r.date))
          = decide (sectorKey q ∉ (r :: rest).map sectorKey) := by
      intro q
      by_cases h1 : sectorKey q ∈ rest.map sectorKey
      · simp [h1]
      · by_cases h2 : q.sector = r.sector ∧ q.date = r.date
        · have : sectorKey q = sectorKey r := by
            simp [sectorKey, h2.1, h2.2]
          simp [h1, h2, this]
        · have : sectorKey q ≠ sectorKey r := by
            intro hc
            exact h2 ⟨congrArg Prod.fst hc, congrArg Prod.snd hc⟩
          simp [h1, h2, this]
    rw [List.filter_congr (fun q _ => hpred q)]
    simp

/-- With at least one sector, one run of `update_sector_performance` keeps
the rows whose key is not being recomputed and appends one fresh record per
distinct sector, in order. -/
theorem update_sector_performance_eq (tbl : List SectorRow)
    (assets : List SectorAsset) (today : String)
    (hne : distinctSectors assets ≠ []) :
    update_sector_performance tbl assets today
      = tbl.filter (fun q =>
          sectorKey q ∉ (distinctSectors assets).map (fun s => (s, today)))
        ++ (distinctSectors assets).map (fun s => sectorRecordFor assets s today) := by
  unfold update_sector_performance
  rw [if_neg (by simpa [List.isEmpty_iff] using hne)]
  have hkeys : ((distinctSectors assets).map
      (fun s => sectorRecordFor assets s today)).map sectorKey
      = (distinctSectors assets).map (fun s => (s, today)) := by
    rw [List.map_map]
    rfl
  have hnd2 : (((distinctSectors assets).map
      (fun s => sectorRecordFor assets s today)).map sectorKey).Nodup := by
    rw [hkeys]
    exact (distinctSectors_nodup assets).map
      (fun a b h => by simpa using (Prod.mk.injEq ..).mp h |>.1)
  rw [foldl_upsertSector _ tbl hnd2]
  rw [hkeys]

/-- In a duplicate-free list containing `s`, exactly one entry equals `s`. -/
theorem filter_eq_length_one {l : List String} {s : String} (hnd : l.Nodup)
    (hs : s ∈ l) : (l.filter (fun x => decide (x = s))).length = 1 := by
  induction l with
  | nil => cases hs
  | cons a rest ih =>
    rcases List.mem_cons.mp hs with rfl | hmem
    · have hz : rest.filter (fun x => decide (x = s)) = [] := by
        apply List.filter_eq_nil_iff.mpr
        intro x hx
        simp only [decide_eq_true_eq]
        intro he
        exact (List.nodup_cons.mp hnd).1 (he ▸ hx)
      simp [List.filter_cons, hz]
    · have hne : a ≠ s := fun he => (List.nodup_cons.mp hnd).1 (he ▸ hmem)
      simp only [List.filter_cons, hne, decide_False, if_false]
      exact ih (List.nodup_cons.mp hnd).2 hmem

/-- Claim C9: for every sector being aggregated, the asset count includes
every active asset of the sector (null market caps included), the summed
market cap excludes nulls (and is itself null — not zero — when no cap is
known), recomputation leaves exactly one snapshot row per (sector, date),
and re-running the aggregation on the same date replaces rather than
duplicates. -/
theorem sector_aggregation_null_safe_and_idempotent
    (assets : List SectorAsset) (tbl : List SectorRow) (today s : String)
    (hs : s ∈ distinctSectors assets) :
    (sectorRecordFor assets s today).numberOfAssets
      = (activeInSector assets s).length ∧
    ((sectorRecordFor assets s today).totalMarketCap = none ↔
      (activeInSector assets s).filterMap (fun a => a.marketCap) = []) ∧
    ((activeInSector assets s).filterMap (fun a => a.marketCap) ≠ [] →
      (sectorRecordFor assets s today).totalMarketCap
        = some ((activeInSector assets s).filterMap (fun a => a.marketCap)).sum) ∧
    ((update_sector_performance tbl assets today).filter
        (fun q => sectorKey q = (s, today))).length = 1 ∧
    update_sector_performance (update_sector_performance tbl assets today) assets today
      = update_sector_performance tbl assets today := by
  have hne : distinctSectors assets ≠ [] := List.ne_nil_of_mem hs
  have hrun := update_sector_performance_eq tbl assets today hne
  have hkey_mem : (s, today) ∈ (distinctSectors assets).map (fun x => (x, today)) :=
    List.mem_map_of_mem _ hs
  refine ⟨rfl, ?_, ?_, ?_, ?_⟩
  · simp only [sectorRecordFor, sqlSumInt]
    by_cases h : ((activeInSector assets s).filterMap (fun a => a.marketCap)).isEmpty
    · simp [h, List.isEmpty_iff.mp h]
    · simp only [h, if_false]
      constructor
      · intro hc; exact absurd hc (by simp)
      · intro hc; exact absurd hc (by simpa [List.isEmpty_iff] using h)
  · intro h
    simp [sectorRecordFor, sqlSumInt, List.isEmpty_iff, h]
  · rw [hrun, List.filter_append, List.filter_filter]
    have hz : (tbl.filter fun q =>
        decide (sectorKey q = (s, today)) &&
        decide (sectorKey q ∉ (distinctSectors assets).map fun x => (x, today))) = [] := by
      apply List.filter_eq_nil_iff.mpr
      intro q _
      by_cases h : sectorKey q = (s, today)
      · simp [h, hkey_mem]
      · simp [h]
    rw [hz]
    simp only [List.nil_append]
    rw [List.filter_map _ (distinctSectors assets), List.length_map]
    have hpe : ∀ x, ((fun q => decide (sectorKey q = (s, today))) ∘
        (fun x => sectorRecordFor assets x today)) x = decide (x = s) := by
      intro x
      simp [Function.comp, sectorKey, sectorRecordFor]
    rw [List.filter_congr (fun x _ => hpe x)]
    exact filter_eq_length_one (distinctSectors_nodup assets) hs
  · rw [hrun, update_sector_performance_eq _ assets today hne,
      List.filter_append]
    have hz : ((distinctSectors assets).map
        (fun s => sectorRecordFor assets s today)).filter
        (fun q => decide (sectorKey q ∉ (distinctSectors assets).map
          fun s => (s, today))) = [] := by
      apply List.filter_eq_nil_iff.mpr
      intro q hq
      rcases List.mem_map.mp hq with ⟨x, hx, rfl⟩
      have hxm : ((x : String), today) ∈ (distinctSectors assets).map
          (fun y => (y, today)) := List.mem_map_of_mem _ hx
      simp only [decide_eq_true_eq, not_not]
      exact hxm
    rw [hz, List.append_nil, List.filter_filter]
    have hidem : (tbl.filter fun q =>
        decide (sectorKey q ∉ (distinctSectors assets).map fun s => (s, today)) &&
        decide (sectorKey q ∉ (distinctSectors assets).map fun s => (s, today)))
        = tbl.filter fun q =>
          decide (sectorKey q ∉ (distinctSectors assets).map fun s => (s, today)) := by
      apply List.filter_congr
      intro q _
      simp
    rw [hidem]

/-- Witness for `sector_aggregation_null_safe_and_idempotent` on a small
assets table with one null market cap in the Tech sector. -/
theorem sector_aggregation_null_safe_and_idempotent_witness :
    "Tech" ∈ distinctSectors exAssets ∧
    ((sectorRecordFor exAssets "Tech" "2026-10-12").numberOfAssets
        = (activeInSector exAssets "Tech").length ∧
     ((sectorRecordFor exAssets "Tech" "2026-10-12").totalMarketCap = none ↔
        (activeInSector exAssets "Tech").filterMap (fun a => a.marketCap) = []) ∧
     ((activeInSector exAssets "Tech").filterMap (fun a => a.marketCap) ≠ [] →
        (sectorRecordFor exAssets "Tech" "2026-10-12").totalMarketCap
          = some ((activeInSector exAssets "Tech").filterMap
              (fun a => a.marketCap)).sum) ∧
     ((update_sector_performance [] exAssets "2026-10-12").filter
        (fun q => sectorKey q = ("Tech", "2026-10-12"))).length = 1 ∧
     update_sector_performance
        (update_sector_performance [] exAssets "2026-10-12") exAssets "2026-10-12"
       = update_sector_performance [] exAssets "2026-10-12") :=
  ⟨by decide,
   sector_aggregation_null_safe_and_idempotent exAssets [] "2026-10-12" "Tech"
     (by decide)⟩

/-! ## Claim C8: realized volatility -/

/-- `pctChangeFrom` preserves length. -/
theorem pctChangeFrom_length (l : List ℝ) :
    ∀ prev : ℝ, (pctChangeFrom prev l).length = l.length := by
  induction l with
  | nil => intro prev; rfl
  | cons c rest ih => intro prev; simp [pctChangeFrom, ih c]

/-- `pct_change` preserves length. -/
theorem pct_change_length (ps : List ℝ) : (pct_change ps).length = ps.length := by
  cases ps with
  | nil => rfl
  | cons p rest => simp [pct_change, pctChangeFrom_length]

/-- The return cells after the head: current against previous price. -/
theorem pctChangeFrom_getElem (l : List ℝ) :
    ∀ (prev : ℝ) (j : Nat) (h : j < (pctChangeFrom prev l).length),
      (pctChangeFrom prev l)[j]
        = some ((l.getD j 0 - (prev :: l).getD j 0) / (prev :: l).getD j 0) := by
  induction l with
  | nil => intro prev j h; simp [pctChangeFrom] at h
  | cons c rest ih =>
    intro prev j h
    cases j with
    | zero => simp [pctChangeFrom]
    | succ k =>
      have hk : k < (pctChangeFrom c rest).length := by
        rw [pctChangeFrom_length] at h ⊢
        simp only [List.length_cons] at h
        omega
      show (pctChangeFrom c rest)[k] = _
      rw [ih c k hk]
      simp [List.getD_cons_succ]

/-- The return series cell by position: `NaN` first, then the simple
period-over-period return of the spec. -/
theorem pct_change_getElem (ps : List ℝ) (i : Nat)
    (h : i < (pct_change ps).length) :
    (pct_change ps)[i] = if i = 0 then none else some (specReturn ps i) := by
  cases ps with
  | nil => simp [pct_change] at h
  | cons p rest =>
    cases i with
    | zero => simp [pct_change]
    | succ k =>
      rw [if_neg (Nat.succ_ne_zero k)]
      have hk : k < (pctChangeFrom p rest).length := by
        simp only [pct_change, List.length_cons, pctChangeFrom_length] at h ⊢
        omega
      show (pctChangeFrom p rest)[k] = some (specReturn (p :: rest) (k + 1))
      rw [pctChangeFrom_getElem rest p k hk]
      unfold specReturn
      simp [List.getD_cons_succ]

/-- Joining a window with no `NaN` yields the values. -/
theorem allSome_map_some (l : List ℝ) : allSome (l.map some) = some l := by
  induction l with
  | nil => rfl
  | cons x rest ih => simp [allSome, ih]

/-- A `NaN` anywhere in the window poisons the join. -/
theorem allSome_eq_none {l : List (Option ℝ)} (h : none ∈ l) :
    allSome l = none := by
  induction l with
  | nil => cases h
  | cons x rest ih =>
    cases x with
    | none => rfl
    | some v =>
      rcases List.mem_cons.mp h with hx | hmem
      · cases hx
      · simp [allSome, ih hmem]

/-- Joining preserves the window length. -/
theorem allSome_length {l : List (Option ℝ)} {v : List ℝ}
    (h : allSome l = some v) : v.length = l.length := by
  induction l generalizing v with
  | nil => simp [allSome] at h; simp [h.symm]
  | cons x rest ih =>
    cases x with
    | none => simp [allSome] at h
    | some w =>
      cases hrest : allSome rest with
      | none => rw [allSome, hrest] at h; simp at h
      | some u =>
        have h2 : v = w :: u := by
          rw [allSome, hrest] at h
          simp at h
          exact h.symm
        rw [h2]
        simp [ih hrest]

/-- The full trailing window of `W` return cells ending at position `i`,
when `W ≤ i < n`: the spec's `returns[i−W+1..i]`, all non-`NaN`. -/
theorem window_eq (prices : List ℝ) (W i : Nat) (hW : W ≤ i)
    (hi : i < prices.length) :
    ((pct_change prices).take (i + 1)).drop (i + 1 - W)
      = (List.range W).map (fun j => some (specReturn prices (i - W + 1 + j))) := by
  have hxs : (pct_change prices).length = prices.length := pct_change_length prices
  apply List.ext_getElem
  · simp only [List.length_drop, List.length_take, List.length_map,
      List.length_range, hxs]
    omega
  · intro j h1 h2
    have hj : j < W := by simpa using h2
    simp only [List.getElem_drop, List.getElem_take, List.getElem_map,
      List.getElem_range]
    rw [pct_change_getElem prices (i + 1 - W + j) (by rw [hxs]; omega)]
    rw [if_neg (by omega)]
    have harith : i + 1 - W + j = i - W + 1 + j := by omega
    rw [harith]

/-- The rolling standard deviation of the return series at position `i`:
defined exactly when a full window of `W ≥ 2` returns is available
(`W ≤ i`), where it is the sample standard deviation of the spec's trailing
return window; `NaN` otherwise. -/
theorem rollingStdAt_pct_change (prices : List ℝ) (W i : Nat)
    (hi : i < prices.length) :
    rollingStdAt W (pct_change prices) i
      = if 2 ≤ W ∧ W ≤ i then
          some (sampleStdev ((List.range W).map
            (fun j => specReturn prices (i - W + 1 + j))))
        else none := by
  have hxs : (pct_change prices).length = prices.length := pct_change_length prices
  by_cases hc : 2 ≤ W ∧ W ≤ i
  · rw [if_pos hc]
    obtain ⟨h2, hWi⟩ := hc
    simp only [rollingStdAt]
    rw [window_eq prices W i hWi hi]
    rw [if_neg (by simp)]
    have h3 : (List.range W).map (fun j => some (specReturn prices (i - W + 1 + j)))
        = ((List.range W).map (fun j => specReturn prices (i - W + 1 + j))).map some := by
      rw [List.map_map]
      rfl
    rw [h3, allSome_map_some]
    simp only [List.length_map, List.length_range]
    rw [if_neg (by omega)]
  · rw [if_neg hc]
    simp only [rollingStdAt]
    by_cases hlen : (((pct_change prices).take (i + 1)).drop (i + 1 - W)).length < W
    · rw [if_pos hlen]
    · rw [if_neg hlen]
      have hwlen : (((pct_change prices).take (i + 1)).drop (i + 1 - W)).length
          = min W (i + 1) := by
        simp only [List.length_drop, List.length_take, hxs]
        omega
      by_cases hW2 : 2 ≤ W
      · have hiW : i + 1 = W := by
          rw [hwlen] at hlen
          omega
        have hzero : i + 1 - W = 0 := by omega
        have hmem : (none : Option ℝ) ∈
            ((pct_change prices).take (i + 1)).drop (i + 1 - W) := by
          rw [hzero, List.drop_zero]
          cases prices with
          | nil => simp at hi
          | cons p rest => simp [pct_change, List.take_cons]
        rw [allSome_eq_none hmem]
      · rcases hall : allSome (((pct_change prices).take (i + 1)).drop (i + 1 - W))
          with _ | vals
        · rfl
        · have hvl := allSome_length hall
          have hle : vals.length ≤ 1 := by
            rw [hvl, hwlen]
            omega
          simp [hle]

/-- Claim C8: the realized-volatility rows computed by
`calculate_realized_volatility` are exactly the spec's: one row per position
with a full trailing window of `W` returns, valued
`stdev(returns[t−W+1..t]) × sqrt(252)`, and no row where fewer than `W`
returns are available (those rows are dropped, not zero-filled). -/
theorem realized_volatility_matches_spec_formula (prices : List ℝ) (W : Nat) :
    calculate_realized_volatility prices W = specVolatilityRows prices W := by
  simp only [calculate_realized_volatility, specVolatilityRows]
  rw [pct_change_length]
  apply List.filterMap_congr
  intro i hi
  have hin : i < prices.length := by simpa using hi
  rw [rollingStdAt_pct_change prices W i hin]
  by_cases hc : 2 ≤ W ∧ W ≤ i
  · rw [if_pos hc, if_pos hc]
  · rw [if_neg hc, if_neg hc]

end FMA
